import Mathlib

/-!
Verification of the WhatsApp-webhook contact-extraction service (app.py).

The Python source is shallowly embedded: strings are `List Char`, the
external collaborators (Twilio fetch, PyPDF2/docx/pytesseract parsing, the
Gemini call, the spreadsheet) are oracle parameters recording whether each
call succeeds and what it returns, and each request handler becomes a pure
function of the form fields and those oracles.  `json.loads` is modelled by
an executable recursive-descent JSON reader covering the standard grammar
(strings with the simple escapes, numbers, literals, arrays, objects;
extra data after the value is rejected, as Python does).
-/

/-- A contact record: the Name/Email/Phone dictionary built by
`extract_details` (app.py lines 108-112). -/
structure Person where
  name : List Char
  email : List Char
  phone : List Char
deriving DecidableEq, Repr

/-- The all-empty record returned on every failure path of
`extract_details` (app.py lines 114 and 117). -/
def emptyPerson : Person := ⟨[], [], []⟩

/- ===== Python string primitives used by app.py ===== -/

/-- Whitespace stripped by Python `str.strip()`. -/
def pyIsSpace (c : Char) : Bool :=
  c = ' ' || c = Char.ofNat 9 || c = Char.ofNat 10 || c = Char.ofNat 13 ||
  c = Char.ofNat 11 || c = Char.ofNat 12

/-- Python `s.strip()`. -/
def pyStrip (s : List Char) : List Char :=
  ((s.dropWhile pyIsSpace).reverse.dropWhile pyIsSpace).reverse

/-- Auxiliary index scan for `pyFind`. -/
def pyFindAux : List Char → Char → Nat → Option Nat
  | [], _, _ => none
  | c :: t, x, i => if c = x then some i else pyFindAux t x (i + 1)

/-- Python `s.find(ch)` restricted to single-character needles: index of the
first occurrence, `none` standing for -1. -/
def pyFind (s : List Char) (x : Char) : Option Nat := pyFindAux s x 0

/-- Python `s.rfind(ch)`: index of the last occurrence. -/
def pyRFind (s : List Char) (x : Char) : Option Nat :=
  match pyFind s.reverse x with
  | none => none
  | some i => some (s.length - 1 - i)

/-- Python slice `s[a:b]` for the non-negative indices produced by
find/rfind. -/
def pySlice (s : List Char) (a b : Nat) : List Char := (s.take b).drop a

/-- Python `s.replace(old, new)` for single characters. -/
def pyReplaceChar (a b : Char) (s : List Char) : List Char :=
  s.map fun c => if c = a then b else c

/-- Python `s.lower()` on the ASCII range (content types are ASCII). -/
def pyLower (s : List Char) : List Char := s.map Char.toLower

/-- Does the second list start with the first? -/
def startsWithL : List Char → List Char → Bool
  | [], _ => true
  | _ :: _, [] => false
  | p :: ps, c :: cs => p = c && startsWithL ps cs

/-- Python `pat in s` (substring containment). -/
def containsSub (pat : List Char) : List Char → Bool
  | [] => startsWithL pat []
  | c :: t => startsWithL pat (c :: t) || containsSub pat t

/-- Python `int(s)` on a string: optional surrounding whitespace, optional
sign, then at least one ASCII digit; anything else raises `ValueError`
(modelled as `none`).  Digit-group underscores and non-ASCII digits are not
modelled. -/
def pyInt (s : List Char) : Option Int :=
  let t := pyStrip s
  let signed : Bool × List Char :=
    match t with
    | c :: r => if c = '-' then (true, r) else if c = '+' then (false, r) else (false, t)
    | [] => (false, t)
  let t1 := signed.2
  if t1 = [] then none
  else if t1.all (fun c => c.isDigit) then
    let n : Nat := t1.foldl (fun acc c => acc * 10 + (c.toNat - 48)) 0
    some (if signed.1 then -(n : Int) else (n : Int))
  else none

/- ===== The live feed (app.py lines 163-173) ===== -/

/-- `event_stream` starts with `last_len = 0` (app.py line 167), whatever
the buffer holds when the connection opens. -/
def connInitLastLen : Nat := 0

/-- One iteration of the `while True` polling loop against one snapshot of
`received_messages` (app.py lines 169-172): when the buffer outgrew the
watermark, emit exactly the new slice and move the watermark to the buffer
length; otherwise emit nothing. -/
def pollOnce (buf : List Person) (lastLen : Nat) : Option (List Person) × Nat :=
  if buf.length > lastLen then (some (buf.drop lastLen), buf.length) else (none, lastLen)

/-- The events one connection emits across a sequence of buffer snapshots,
threading the `last_len` watermark. -/
def runPolls : List (List Person) → Nat → List (List Person)
  | [], _ => []
  | b :: bs, w =>
    match pollOnce b w with
    | (some e, w2) => e :: runPolls bs w2
    | (none, w2) => runPolls bs w2

/-- The buffer is append-only: a later snapshot extends an earlier one. -/
def extendsTo (b l : List Person) : Prop := ∃ t, l = b ++ t

/- helper lemmas about drop/getLastD -/

theorem drop_append_of_le {α : Type} (b t : List α) :
    ∀ w, w ≤ b.length → (b ++ t).drop w = b.drop w ++ t := by
  induction b with
  | nil =>
      intro w hw
      have hz : w = 0 := Nat.le_zero.mp hw
      subst hz; simp
  | cons x xs ih =>
      intro w hw
      cases w with
      | zero => simp
      | succ w' => simpa using ih w' (Nat.le_of_succ_le_succ hw)

theorem getLastD_default_irrel {α : Type} (l : List α) (x : α) :
    ∀ a b : α, (x :: l).getLastD a = (x :: l).getLastD b := by
  induction l generalizing x with
  | nil => intro a b; rfl
  | cons y ys ih => intro a b; simp [List.getLastD, ih y a b]

theorem getLastD_mem_cons {α : Type} (l : List α) (x : α) :
    ∀ d, (x :: l).getLastD d ∈ x :: l := by
  induction l generalizing x with
  | nil => intro d; simp [List.getLastD]
  | cons y ys ih =>
      intro d
      exact List.mem_cons_of_mem x (ih y x)

/-- Core invariant of the polling loop: over any append-only chain of
snapshots, the concatenation of the emitted events is exactly the final
snapshot minus the first `w` records. -/
theorem runPolls_join (snaps : List (List Person)) :
    ∀ w, List.Pairwise extendsTo snaps →
      (runPolls snaps w).flatten = (snaps.getLastD []).drop w := by
  induction snaps with
  | nil => intro w _; simp [runPolls]
  | cons b bs ih =>
      intro w hp
      have hhead : ∀ a ∈ bs, extendsTo b a := (List.pairwise_cons.mp hp).1
      have htail : List.Pairwise extendsTo bs := (List.pairwise_cons.mp hp).2
      by_cases hgrow : b.length > w
      · have hrun : runPolls (b :: bs) w = b.drop w :: runPolls bs b.length := by
          simp [runPolls, pollOnce, hgrow]
        rw [hrun]
        cases bs with
        | nil => simp [runPolls, List.getLastD]
        | cons b2 bs2 =>
            have hlast : (b :: b2 :: bs2).getLastD [] = (b2 :: bs2).getLastD [] := by
              simp [List.getLastD, getLastD_default_irrel bs2 b2 b []]
            have hmem : (b2 :: bs2).getLastD [] ∈ b2 :: bs2 := getLastD_mem_cons bs2 b2 []
            obtain ⟨t, ht⟩ := hhead _ hmem
            have ihl := ih b.length htail
            rw [List.flatten_cons, ihl, hlast, ht]
            have h1 : (b ++ t).drop b.length = t := by
              rw [drop_append_of_le b t b.length (le_refl _)]
              simp
            have h2 : (b ++ t).drop w = b.drop w ++ t :=
              drop_append_of_le b t w (Nat.le_of_lt hgrow)
            rw [h1, h2]
      · have hrun : runPolls (b :: bs) w = runPolls bs w := by
          simp [runPolls, pollOnce, hgrow]
        rw [hrun]
        cases bs with
        | nil =>
            have hble : b.length ≤ w := Nat.le_of_not_lt hgrow
            simp [runPolls, List.getLastD, List.drop_eq_nil_of_le hble]
        | cons b2 bs2 =>
            have hlast : (b :: b2 :: bs2).getLastD [] = (b2 :: bs2).getLastD [] := by
              simp [List.getLastD, getLastD_default_irrel bs2 b2 b []]
            rw [ih w htail, hlast]

/- ===== JSON values and a model of json.loads ===== -/

/-- Character constants, named to keep the embedding readable. -/
def dquoteC : Char := Char.ofNat 34

def squoteC : Char := Char.ofNat 39

def lbrackC : Char := Char.ofNat 91

def rbrackC : Char := Char.ofNat 93

def lbraceC : Char := Char.ofNat 123

def rbraceC : Char := Char.ofNat 125

def bslashC : Char := Char.ofNat 92

/-- JSON values as `json.loads` produces them; numbers carry no payload
because every number reaching `extract_details` is only ever handed to
`str.strip()`, which raises before the value is inspected. -/
inductive Json where
  | null : Json
  | bool (b : Bool) : Json
  | num : Json
  | str (s : List Char) : Json
  | arr (xs : List Json) : Json
  | obj (kvs : List ((List Char) × Json)) : Json

/-- The whitespace `json.loads` skips between tokens. -/
def jsonWs (c : Char) : Bool :=
  c = ' ' || c = Char.ofNat 9 || c = Char.ofNat 10 || c = Char.ofNat 13

def skipWs : List Char → List Char
  | [] => []
  | c :: t => if jsonWs c then skipWs t else c :: t

/-- JSON string escapes (the `\uXXXX` form is not modelled; inputs in this
development avoid it). -/
def unescapeChar (c : Char) : Option Char :=
  if c = dquoteC then some dquoteC
  else if c = bslashC then some bslashC
  else if c = '/' then some '/'
  else if c = 'b' then some (Char.ofNat 8)
  else if c = 'f' then some (Char.ofNat 12)
  else if c = 'n' then some (Char.ofNat 10)
  else if c = 'r' then some (Char.ofNat 13)
  else if c = 't' then some (Char.ofNat 9)
  else none

/-- Body of a JSON string after the opening quote; raw control characters
are rejected as in Python's strict mode. -/
def parseStringBody : List Char → Option ((List Char) × List Char)
  | [] => none
  | c :: t =>
    if c = dquoteC then some ([], t)
    else if c = bslashC then
      match t with
      | [] => none
      | e :: t2 =>
        match unescapeChar e with
        | none => none
        | some ch =>
          match parseStringBody t2 with
          | none => none
          | some (cs, rest) => some (ch :: cs, rest)
    else if c.toNat < 32 then none
    else
      match parseStringBody t with
      | none => none
      | some (cs, rest) => some (c :: cs, rest)

def takeDigits (s : List Char) : (List Char) × List Char :=
  (s.takeWhile Char.isDigit, s.dropWhile Char.isDigit)

/-- JSON integer part: `0` or a nonzero digit followed by digits. -/
def parseIntPart (s : List Char) : Option ((List Char) × List Char) :=
  match s with
  | [] => none
  | c :: t =>
    if c = '0' then some ([c], t)
    else if c.isDigit then
      some (c :: (takeDigits t).1, (takeDigits t).2)
    else none

/-- Optional fraction part. -/
def parseFracPart (s : List Char) : Option (List Char) :=
  match s with
  | [] => some s
  | c :: t =>
    if c = '.' then
      match t with
      | [] => none
      | d :: _ => if d.isDigit then some (takeDigits t).2 else none
    else some s

/-- Optional exponent part. -/
def parseExpPart (s : List Char) : Option (List Char) :=
  match s with
  | [] => some s
  | c :: t =>
    if c = 'e' || c = 'E' then
      let t2 :=
        match t with
        | sg :: tt => if sg = '+' || sg = '-' then tt else t
        | [] => t
      match t2 with
      | [] => none
      | d :: _ => if d.isDigit then some (takeDigits t2).2 else none
    else some s

/-- JSON number (`NaN`/`Infinity` extensions are not modelled). -/
def parseNum (s : List Char) : Option (Json × List Char) :=
  let s1 :=
    match s with
    | c :: t => if c = '-' then t else s
    | [] => s
  match parseIntPart s1 with
  | none => none
  | some (_, r1) =>
    match parseFracPart r1 with
    | none => none
    | some r2 =>
      match parseExpPart r2 with
      | none => none
      | some r3 => some (Json.num, r3)

mutual

/-- Recursive-descent JSON value reader; the fuel argument only bounds the
recursion and is chosen large enough by `jsonLoads`. -/
def parseVal : Nat → List Char → Option (Json × List Char)
  | 0, _ => none
  | Nat.succ fuel, s0 =>
    match skipWs s0 with
    | [] => none
    | c :: t =>
      if c = lbrackC then
        match skipWs t with
        | [] => none
        | d :: t2 =>
          if d = rbrackC then some (Json.arr [], t2)
          else
            match parseVal fuel (d :: t2) with
            | none => none
            | some (v, r) => parseArrRest fuel r [v]
      else if c = lbraceC then
        match skipWs t with
        | [] => none
        | d :: t2 =>
          if d = rbraceC then some (Json.obj [], t2)
          else
            match parseMember fuel (d :: t2) with
            | none => none
            | some (kv, r) => parseObjRest fuel r [kv]
      else if c = dquoteC then
        match parseStringBody t with
        | none => none
        | some (str, rest) => some (Json.str str, rest)
      else if startsWithL ("true".data) (c :: t) then some (Json.bool true, (c :: t).drop 4)
      else if startsWithL ("false".data) (c :: t) then some (Json.bool false, (c :: t).drop 5)
      else if startsWithL ("null".data) (c :: t) then some (Json.null, (c :: t).drop 4)
      else parseNum (c :: t)

/-- Remaining elements of a JSON array after the first. -/
def parseArrRest : Nat → List Char → List Json → Option (Json × List Char)
  | 0, _, _ => none
  | Nat.succ fuel, s, acc =>
    match skipWs s with
    | [] => none
    | c :: t =>
      if c = rbrackC then some (Json.arr acc.reverse, t)
      else if c = ',' then
        match parseVal fuel t with
        | none => none
        | some (v, r) => parseArrRest fuel r (v :: acc)
      else none

/-- One `"key": value` member of a JSON object. -/
def parseMember : Nat → List Char → Option (((List Char) × Json) × List Char)
  | 0, _ => none
  | Nat.succ fuel, s =>
    match skipWs s with
    | [] => none
    | c :: t =>
      if c = dquoteC then
        match parseStringBody t with
        | none => none
        | some (key, r1) =>
          match skipWs r1 with
          | [] => none
          | d :: r2 =>
            if d = ':' then
              match parseVal fuel r2 with
              | none => none
              | some (v, r3) => some ((key, v), r3)
            else none
      else none

/-- Remaining members of a JSON object after the first. -/
def parseObjRest : Nat → List Char → List ((List Char) × Json) → Option (Json × List Char)
  | 0, _, _ => none
  | Nat.succ fuel, s, acc =>
    match skipWs s with
    | [] => none
    | c :: t =>
      if c = rbraceC then some (Json.obj acc.reverse, t)
      else if c = ',' then
        match parseMember fuel t with
        | none => none
        | some (kv, r) => parseObjRest fuel r (kv :: acc)
      else none

end

/-- `json.loads`: parse one value and reject trailing data. -/
def jsonLoads (s : List Char) : Option Json :=
  match parseVal (s.length + 2) s with
  | none => none
  | some (v, rest) => if skipWs rest = [] then some v else none

/- ===== extract_details (app.py lines 78-117) ===== -/

/-- Python dict lookup over parsed members: a duplicated key keeps the last
value, as `json.loads` builds a dict. -/
def objGet (kvs : List ((List Char) × Json)) (key : List Char) : Option Json :=
  kvs.foldl (fun acc kv => if kv.1 = key then some kv.2 else acc) none

/-- One field of the cleaning loop (app.py lines 109-111):
missing key defaults to the empty string, a string value is stripped, and a
non-string value makes `.strip()` raise (propagated as `none`). -/
def coerceField (kvs : List ((List Char) × Json)) (key : List Char) : Option (List Char) :=
  match objGet kvs key with
  | none => some []
  | some (Json.str s) => some (pyStrip s)
  | some _ => none

/-- Cleaning of one parsed element (app.py lines 107-112); a non-dict
element makes `d.get` raise. -/
def cleanRecord : Json → Option Person
  | Json.obj kvs =>
    match coerceField kvs ("Name".data), coerceField kvs ("Email".data),
        coerceField kvs ("Phone".data) with
    | some n, some e, some p => some ⟨n, e, p⟩
    | _, _, _ => none
  | _ => none

/-- The cleaning loop over the parsed array; any raise discards the whole
batch (the except branch then returns the single empty record). -/
def cleanAll : List Json → Option (List Person)
  | [] => some []
  | j :: js =>
    match cleanRecord j, cleanAll js with
    | some p, some ps => some (p :: ps)
    | _, _ => none

/-- The string handed to `json.loads` (app.py lines 95-103): strip the
response, slice from the first occurrence of the opening bracket to the
last occurrence of the closing bracket, then replace every single quote
with a double quote. -/
def mkJsonStr (text : List Char) : List Char :=
  let data := pyStrip text
  match pyFind data lbrackC, pyRFind data rbrackC with
  | some st, some e => pyReplaceChar squoteC dquoteC (pySlice data st (e + 1))
  | _, _ => []

/-- Processing of the model's response text (app.py lines 95-114): locate
and parse the bracketed span, clean each element, and fall back to one
all-empty record when no bracket exists, the parse raises, the cleaning
raises, or the cleaned list is empty. -/
def extractFromData (text : List Char) : List Person :=
  match pyFind (pyStrip text) lbrackC, pyRFind (pyStrip text) rbrackC with
  | some _, some _ =>
    match jsonLoads (mkJsonStr text) with
    | some (Json.arr xs) =>
      match cleanAll xs with
      | some cleaned => if cleaned = [] then [emptyPerson] else cleaned
      | none => [emptyPerson]
    | _ => [emptyPerson]
  | _, _ => [emptyPerson]

/-- `extract_details` (app.py lines 78-117).  The first argument is the
text interpolated into the prompt; it influences only the external model,
so the pure model ignores it.  The second argument is the oracle for the
`generate_content` call: `none` when the request (or reading
`response.text`) raises, `some r` when the model answers `r`. -/
def extract_details (_input : List Char) (response : Option (List Char)) : List Person :=
  match response with
  | none => [emptyPerson]
  | some r => extractFromData r

/- ===== extract_text_from_file (app.py lines 53-75) ===== -/

/-- Oracles for the external calls inside `extract_text_from_file`:
whether the authenticated fetch raises, what the three parsers would
produce (`none` modelling a raise inside the library call), and whether the
optional `pytesseract` import succeeded. -/
structure MediaEnv where
  fetchOk : Bool
  pdfPages : Option (List (Option (List Char)))
  docxParas : Option (List (List Char))
  ocrText : Option (List Char)
  tesseractAvailable : Bool

/-- The page loop of the PDF branch (app.py lines 59-63): falsy page text
(`None` or the empty string) contributes nothing, otherwise text plus a
newline. -/
def pdfConcat (pages : List (Option (List Char))) : List Char :=
  pages.foldl
    (fun acc pt =>
      match pt with
      | some t => if t = [] then acc else acc ++ t ++ [Char.ofNat 10]
      | none => acc)
    []

/-- `extract_text_from_file` (app.py lines 53-75).  The whole body sits in
one try/except returning the empty string, so the model is total: every
raise becomes `[]`.  `media_type` is `Option` because the form may lack
`MediaContentType0`, in which case `media_type.lower()` raises inside the
try block. -/
def extract_text_from_file (env : MediaEnv) (media_type : Option (List Char)) : List Char :=
  if env.fetchOk = false then []
  else
    match media_type with
    | none => []
    | some mt =>
      if containsSub ("pdf".data) (pyLower mt) then
        match env.pdfPages with
        | none => []
        | some pages => pdfConcat pages
      else if containsSub ("word".data) (pyLower mt) then
        match env.docxParas with
        | none => []
        | some paras => List.intercalate [Char.ofNat 10] paras
      else if startsWithL ("image/".data) mt && env.tesseractAvailable then
        match env.ocrText with
        | none => []
        | some t => t
      else []

/- ===== incoming_message (app.py lines 120-159) ===== -/

/-- The form fields the handler reads; each is `none` when absent from the
request. -/
structure Form where
  fromField : Option (List Char)
  body : Option (List Char)
  numMedia : Option (List Char)
  mediaUrl0 : Option (List Char)
  mediaContentType0 : Option (List Char)

/-- `int(request.form.get("NumMedia", 0))` (app.py line 124): a missing
field becomes the integer default 0; a present field goes through `int`,
which raises on non-numeric text. -/
def numMediaParse (v : Option (List Char)) : Option Int :=
  match v with
  | none => some 0
  | some s => pyInt s

/-- Truthiness test `if name or email or phone` (app.py line 142). -/
def nonEmptyPerson (p : Person) : Bool :=
  !(p.name.isEmpty && p.email.isEmpty && p.phone.isEmpty)

/-- Result of the per-person loop (app.py lines 135-148). -/
structure LoopOut where
  count : Nat
  sheetRows : List Person
  bufferRows : List Person
deriving DecidableEq, Repr

/-- The per-person loop (app.py lines 135-148): an all-falsy record is
skipped entirely; otherwise `sheet.append_row` is attempted (the `i`-th
attempt succeeding iff `ok i`), `count` grows only on success, and the
record joins `received_messages` regardless. -/
def processLoop (ok : Nat → Bool) : List Person → Nat → LoopOut
  | [], _ => ⟨0, [], []⟩
  | p :: ps, i =>
    if nonEmptyPerson p then
      let rest := processLoop ok ps (i + 1)
      if ok i then ⟨rest.count + 1, p :: rest.sheetRows, p :: rest.bufferRows⟩
      else ⟨rest.count, rest.sheetRows, p :: rest.bufferRows⟩
    else processLoop ok ps i

/-- Reply text for `count > 1` (app.py line 153). -/
def successManyMsg (n : Nat) : List Char :=
  ("✅ ".data) ++ ((toString n).data) ++
    (" candidates’ details have been stored successfully.".data)

/-- Reply text for `count == 1` (app.py line 155). -/
def successOneMsg : List Char :=
  ("✅ 1 candidate’s details have been stored successfully.".data)

/-- Reply text for `count == 0` (app.py line 157). -/
def noValidMsg : List Char :=
  ("⚠️ No valid candidate details found in your file or message.".data)

/-- The reply cascade (app.py lines 151-159). -/
def replyMessage (count : Nat) : List Char :=
  if count > 1 then successManyMsg count
  else if count = 1 then successOneMsg
  else noValidMsg

/-- Everything observable about one webhook invocation: the reply text,
the rows appended to the spreadsheet, the records appended to the feed
buffer, and the text handed to `extract_details`. -/
structure HandlerResult where
  reply : List Char
  sheetRows : List Person
  bufferRows : List Person
  extractorInput : List Char
deriving DecidableEq, Repr

/-- External-call oracles for one webhook invocation. -/
structure Env where
  media : MediaEnv
  geminiResponse : Option (List Char)
  sheetOk : Nat → Bool

/-- The handler body after `NumMedia` parsed to `n` (app.py lines
127-159). -/
def handleWithN (form : Form) (env : Env) (n : Int) : HandlerResult :=
  let body :=
    if 0 < n then extract_text_from_file env.media form.mediaContentType0
    else form.body.getD []
  let people := extract_details body env.geminiResponse
  let res := processLoop env.sheetOk people 0
  ⟨replyMessage res.count, res.sheetRows, res.bufferRows, body⟩

/-- `incoming_message` (app.py lines 120-159).  The only uncaught raise in
the handler is `int()` on a malformed `NumMedia` (line 124), surfacing as a
server error; everything downstream is total. -/
def incoming_message (form : Form) (env : Env) : Except Unit HandlerResult :=
  match numMediaParse form.numMedia with
  | none => Except.error ()
  | some n => Except.ok (handleWithN form env n)

/- ===== helper lemmas about the handler ===== -/

theorem processLoop_buffer (ok : Nat → Bool) :
    ∀ (ps : List Person) (i : Nat),
      (processLoop ok ps i).bufferRows = ps.filter nonEmptyPerson := by
  intro ps
  induction ps with
  | nil => intro i; rfl
  | cons p ps ih =>
      intro i
      by_cases hp : nonEmptyPerson p
      · cases hok : ok i <;> simp [processLoop, hp, hok, List.filter_cons, ih]
      · simp [processLoop, hp, List.filter_cons, ih]

theorem processLoop_count (ok : Nat → Bool) :
    ∀ (ps : List Person) (i : Nat),
      (processLoop ok ps i).count = (processLoop ok ps i).sheetRows.length := by
  intro ps
  induction ps with
  | nil => intro i; rfl
  | cons p ps ih =>
      intro i
      by_cases hp : nonEmptyPerson p
      · cases hok : ok i <;> simp [processLoop, hp, hok, ih]
      · simp [processLoop, hp, ih]

theorem processLoop_sheet_allok (ok : Nat → Bool) (hok : ∀ j, ok j = true) :
    ∀ (ps : List Person) (i : Nat),
      (processLoop ok ps i).sheetRows = ps.filter nonEmptyPerson := by
  intro ps
  induction ps with
  | nil => intro i; rfl
  | cons p ps ih =>
      intro i
      by_cases hp : nonEmptyPerson p
      · simp [processLoop, hp, hok i, List.filter_cons, ih]
      · simp [processLoop, hp, List.filter_cons, ih]

theorem processLoop_sheet_allfail (ok : Nat → Bool) (hok : ∀ j, ok j = false) :
    ∀ (ps : List Person) (i : Nat), (processLoop ok ps i).sheetRows = [] := by
  intro ps
  induction ps with
  | nil => intro i; rfl
  | cons p ps ih =>
      intro i
      by_cases hp : nonEmptyPerson p
      · simp [processLoop, hp, hok i, ih]
      · simp [processLoop, hp, ih]

theorem incoming_ok_inv (form : Form) (env : Env) (r : HandlerResult)
    (h : incoming_message form env = Except.ok r) :
    ∃ n, numMediaParse form.numMedia = some n ∧ r = handleWithN form env n := by
  unfold incoming_message at h
  cases hnm : numMediaParse form.numMedia with
  | none => rw [hnm] at h; cases h
  | some n =>
      rw [hnm] at h
      injection h with h1
      exact ⟨n, rfl, h1.symm⟩

theorem handleWithN_extractorInput (form : Form) (env : Env) (n : Int) :
    (handleWithN form env n).extractorInput =
      (if 0 < n then extract_text_from_file env.media form.mediaContentType0
       else form.body.getD []) := rfl

theorem handleWithN_sheetRows (form : Form) (env : Env) (n : Int) :
    (handleWithN form env n).sheetRows =
      (processLoop env.sheetOk
        (extract_details ((handleWithN form env n).extractorInput) env.geminiResponse)
        0).sheetRows := rfl

theorem handleWithN_bufferRows (form : Form) (env : Env) (n : Int) :
    (handleWithN form env n).bufferRows =
      (processLoop env.sheetOk
        (extract_details ((handleWithN form env n).extractorInput) env.geminiResponse)
        0).bufferRows := rfl

theorem handleWithN_reply (form : Form) (env : Env) (n : Int) :
    (handleWithN form env n).reply =
      replyMessage (processLoop env.sheetOk
        (extract_details ((handleWithN form env n).extractorInput) env.geminiResponse)
        0).count := rfl

theorem replyMessage_eq_noValid_iff :
    ∀ c : Nat, (replyMessage c = noValidMsg ↔ c = 0)
  | 0 => by simp [replyMessage]
  | 1 => by decide
  | (c + 2) => by
      have hgt : c + 2 > 1 := by omega
      have hm : replyMessage (c + 2) = successManyMsg (c + 2) := by
        simp [replyMessage, hgt]
      constructor
      · intro h
        rw [hm] at h
        have h1 : (successManyMsg (c + 2)).head? = noValidMsg.head? := congrArg List.head? h
        have h2 : (successManyMsg (c + 2)).head? = some (Char.ofNat 9989) := rfl
        have h3 : noValidMsg.head? = some (Char.ofNat 9888) := rfl
        rw [h2, h3] at h1
        exact absurd h1 (by decide)
      · intro h; exact absurd h (by omega)

/- ===== concrete fixtures for witnesses and counterexamples ===== -/

/-- A media environment where the fetch succeeds and no parser is
consulted. -/
def plainMedia : MediaEnv := ⟨true, none, none, none, false⟩

/-- A model response carrying one complete contact. -/
def aliceResp : List Char :=
  ("[\x7b\"Name\": \"Alice\", \"Email\": \"alice@x.com\", \"Phone\": \"+911234567890\"\x7d]".data)

/-- The record extracted from `aliceResp`. -/
def alice : Person :=
  ⟨("Alice".data), ("alice@x.com".data), ("+911234567890".data)⟩

/-- A text-only form (no `NumMedia` field at all). -/
def formW : Form := ⟨none, some ("Contact Alice".data), none, none, none⟩

/-- A form announcing one plain-text attachment. -/
def formMediaW : Form :=
  ⟨none, some ("hello".data), some ("1".data), some ("u".data), some ("text/plain".data)⟩

/-- Oracles: every spreadsheet append succeeds. -/
def envOkW : Env := ⟨plainMedia, some aliceResp, fun _ => true⟩

/-- Oracles: every spreadsheet append raises. -/
def envFailW : Env := ⟨plainMedia, some aliceResp, fun _ => false⟩

/- ===== C2 ===== -/

/-- Claim C2: when every spreadsheet append succeeds, the rows appended to
the spreadsheet and the records appended to the feed buffer during one
webhook request are both exactly the extracted records having at least one
non-empty field, in order (so each such record is appended exactly once to
each), and a record with all three fields empty reaches neither. -/
theorem records_filtered_and_appended_once (form : Form) (env : Env) (r : HandlerResult)
    (hok : ∀ j, env.sheetOk j = true)
    (h : incoming_message form env = Except.ok r) :
    r.sheetRows =
      (extract_details r.extractorInput env.geminiResponse).filter nonEmptyPerson ∧
    r.bufferRows =
      (extract_details r.extractorInput env.geminiResponse).filter nonEmptyPerson ∧
    (∀ p : Person, nonEmptyPerson p = false → p ∉ r.sheetRows ∧ p ∉ r.bufferRows) := by
  obtain ⟨n, hn, hr⟩ := incoming_ok_inv form env r h
  subst hr
  have hs : (handleWithN form env n).sheetRows =
      (extract_details ((handleWithN form env n).extractorInput)
        env.geminiResponse).filter nonEmptyPerson := by
    rw [handleWithN_sheetRows]
    exact processLoop_sheet_allok env.sheetOk hok _ 0
  have hb : (handleWithN form env n).bufferRows =
      (extract_details ((handleWithN form env n).extractorInput)
        env.geminiResponse).filter nonEmptyPerson := by
    rw [handleWithN_bufferRows]
    exact processLoop_buffer env.sheetOk _ 0
  refine ⟨hs, hb, ?_⟩
  intro p hp
  constructor
  · rw [hs]
    intro hm
    have := (List.mem_filter.mp hm).2
    rw [hp] at this
    cases this
  · rw [hb]
    intro hm
    have := (List.mem_filter.mp hm).2
    rw [hp] at this
    cases this

/-- Witness for C2 at a concrete request: the one extracted record lands
once on the spreadsheet and once in the buffer. -/
theorem records_filtered_and_appended_once_witness :
    (handleWithN formW envOkW 0).sheetRows = [alice] ∧
    (handleWithN formW envOkW 0).bufferRows = [alice] := by
  have h := records_filtered_and_appended_once formW envOkW
    (handleWithN formW envOkW 0) (fun _ => rfl) rfl
  exact ⟨h.1.trans (by decide), h.2.1.trans (by decide)⟩

/- ===== C6 ===== -/

/-- Claim C6: in every webhook reply, the text is the fixed reply cascade
applied to the number of rows actually persisted to the spreadsheet during
the request, and it is the no-valid-details message exactly when that
number is zero, so no internal error detail can appear. -/
theorem reply_no_valid_iff_zero_persisted (form : Form) (env : Env) (r : HandlerResult)
    (h : incoming_message form env = Except.ok r) :
    (r.reply = noValidMsg ↔ r.sheetRows = []) ∧
    r.reply = replyMessage r.sheetRows.length := by
  obtain ⟨n, hn, hr⟩ := incoming_ok_inv form env r h
  subst hr
  have hc := processLoop_count env.sheetOk
    (extract_details ((handleWithN form env n).extractorInput) env.geminiResponse) 0
  have hrep : (handleWithN form env n).reply =
      replyMessage ((handleWithN form env n).sheetRows.length) := by
    rw [handleWithN_reply, hc]
    rfl
  refine ⟨?_, hrep⟩
  rw [hrep, replyMessage_eq_noValid_iff]
  exact List.length_eq_zero

/-- Witness for C6: the concrete request persisting one row replies with
the one-candidate success message. -/
theorem reply_no_valid_iff_zero_persisted_witness :
    (handleWithN formW envOkW 0).reply = replyMessage 1 := by
  have h := reply_no_valid_iff_zero_persisted formW envOkW
    (handleWithN formW envOkW 0) rfl
  exact h.2.trans (by decide)

/- ===== C9 ===== -/

/-- Claim C9: whenever the parsed attachment count is positive, the text
handed to the record extractor is the attachment-extracted text — whatever
it is, including the empty string — and the form's body field is discarded. -/
theorem attachment_replaces_body (form : Form) (env : Env) (n : Int)
    (hn : numMediaParse form.numMedia = some n) (hpos : 0 < n) :
    ∃ r, incoming_message form env = Except.ok r ∧
      r.extractorInput = extract_text_from_file env.media form.mediaContentType0 := by
  refine ⟨handleWithN form env n, ?_, ?_⟩
  · unfold incoming_message
    rw [hn]
  · rw [handleWithN_extractorInput, if_pos hpos]

/-- Witness for C9: with one plain-text attachment (extraction degrades to
the empty string) and a non-empty body, the extractor still receives the
empty attachment text. -/
theorem attachment_replaces_body_witness :
    ∃ r, incoming_message formMediaW envOkW = Except.ok r ∧ r.extractorInput = [] := by
  obtain ⟨r, h1, h2⟩ := attachment_replaces_body formMediaW envOkW 1 (by decide) (by decide)
  exact ⟨r, h1, h2.trans (by decide)⟩

/- ===== C10 ===== -/

/-- Claim C10: when every spreadsheet append raises, each record with at
least one non-empty field still reaches the feed buffer, no row is
persisted, nothing is counted, and the reply is the no-valid-details
message while the feed still surfaces the records. -/
theorem sheet_failure_still_buffers (form : Form) (env : Env) (r : HandlerResult)
    (hfail : ∀ j, env.sheetOk j = false)
    (h : incoming_message form env = Except.ok r) :
    r.bufferRows =
      (extract_details r.extractorInput env.geminiResponse).filter nonEmptyPerson ∧
    r.sheetRows = [] ∧ r.reply = noValidMsg := by
  obtain ⟨n, hn, hr⟩ := incoming_ok_inv form env r h
  subst hr
  have hb : (handleWithN form env n).bufferRows =
      (extract_details ((handleWithN form env n).extractorInput)
        env.geminiResponse).filter nonEmptyPerson := by
    rw [handleWithN_bufferRows]
    exact processLoop_buffer env.sheetOk _ 0
  have hs0 : (processLoop env.sheetOk
      (extract_details ((handleWithN form env n).extractorInput) env.geminiResponse)
      0).sheetRows = [] :=
    processLoop_sheet_allfail env.sheetOk hfail _ 0
  have hs : (handleWithN form env n).sheetRows = [] := by
    rw [handleWithN_sheetRows]
    exact hs0
  have hrep : (handleWithN form env n).reply = noValidMsg := by
    rw [handleWithN_reply, processLoop_count, hs0]
    rfl
  exact ⟨hb, hs, hrep⟩

/-- Witness for C10: the concrete request whose only append fails still
buffers the record, persists nothing and replies no-valid-details. -/
theorem sheet_failure_still_buffers_witness :
    (handleWithN formW envFailW 0).bufferRows = [alice] ∧
    (handleWithN formW envFailW 0).sheetRows = [] ∧
    (handleWithN formW envFailW 0).reply = noValidMsg := by
  have h := sheet_failure_still_buffers formW envFailW
    (handleWithN formW envFailW 0) (fun _ => rfl) rfl
  exact ⟨h.1.trans (by decide), h.2.1, h.2.2⟩

/- ===== C5 ===== -/

/-- Claim C5 counterexample: the handler does not survive every form
payload — a `NumMedia` value that is not an integer literal makes
`int(...)` raise, surfacing as a server error rather than being treated as
no attachment with an empty body. -/
theorem webhook_nonint_nummedia_errors_cex :
    incoming_message ⟨none, none, some ("abc".data), none, none⟩ envOkW =
      Except.error () := rfl

/-- Claim C5 as amended: missing fields do default (a missing `NumMedia`
acts as zero and a missing `Body` as the empty string), and any `NumMedia`
that `int` accepts lets the request proceed, but a `NumMedia` value that
`int` rejects raises an uncaught exception and the request errors. -/
theorem webhook_defaults_and_int_parse :
    (∀ (form : Form) (env : Env), form.numMedia = none →
        incoming_message form env = Except.ok (handleWithN form env 0) ∧
        (handleWithN form env 0).extractorInput = form.body.getD []) ∧
    (∀ (form : Form) (env : Env) (n : Int), numMediaParse form.numMedia = some n →
        incoming_message form env = Except.ok (handleWithN form env n)) ∧
    (∀ (form : Form) (env : Env), numMediaParse form.numMedia = none →
        incoming_message form env = Except.error ()) := by
  refine ⟨?_, ?_, ?_⟩
  · intro form env hnm
    refine ⟨by simp [incoming_message, hnm, numMediaParse], ?_⟩
    rw [handleWithN_extractorInput, if_neg (by omega)]
  · intro form env n hn
    unfold incoming_message
    rw [hn]
  · intro form env hn
    unfold incoming_message
    rw [hn]

/-- Witness for the amended C5: the concrete form with no `NumMedia` and a
present body proceeds normally with the body as extractor input. -/
theorem webhook_defaults_and_int_parse_witness :
    incoming_message formW envOkW = Except.ok (handleWithN formW envOkW 0) ∧
    (handleWithN formW envOkW 0).extractorInput = ("Contact Alice".data) := by
  have h := webhook_defaults_and_int_parse.1 formW envOkW rfl
  exact ⟨h.1, h.2.trans (by decide)⟩

/- ===== C1 / C8: the live feed ===== -/

/-- A record present in the buffer before a late connection opens. -/
def pA : Person := ⟨("PreA".data), [], []⟩

/-- A record appended after that connection opened. -/
def pB : Person := ⟨("NewB".data), [], []⟩

/-- Claim C1 counterexample: a connection opened after one record (`pA`)
was already buffered starts with watermark 0 (app.py line 167) and its
very first emission re-emits `pA`, although no record was appended after
it opened — contradicting the claim that such a connection observes only
records appended after connection time. -/
theorem stream_reemits_preexisting_cex :
    connInitLastLen = 0 ∧
    runPolls [[pA]] connInitLastLen = [[pA]] ∧
    pA ∈ (runPolls [[pA]] connInitLastLen).flatten := by
  refine ⟨rfl, rfl, by decide⟩

/-- Claim C1 as amended: every live-feed connection starts its watermark at
zero regardless of the buffer state at connection time, so over an
append-only run it observes the entire final buffer: a connection opened
before any append indeed sees all N records, but a late connection equally
re-emits the records buffered before it opened. -/
theorem stream_watermark_starts_at_zero (snaps : List (List Person))
    (h : List.Pairwise extendsTo snaps) :
    (runPolls snaps connInitLastLen).flatten = snaps.getLastD [] := by
  have h0 := runPolls_join snaps connInitLastLen h
  simpa [connInitLastLen] using h0

/-- Witness for the amended C1: a connection watching the buffer grow from
`[pA]` to `[pA, pB]` emits, in total, both records — including `pA`,
buffered before it opened. -/
theorem stream_watermark_starts_at_zero_witness :
    (runPolls [[pA], [pA, pB]] connInitLastLen).flatten = [pA, pB] := by
  have hp : List.Pairwise extendsTo [[pA], [pA, pB]] := by
    refine List.Pairwise.cons ?_ (List.Pairwise.cons ?_ List.Pairwise.nil)
    · intro a ha
      simp only [List.mem_singleton] at ha
      subst ha
      exact ⟨[pB], rfl⟩
    · intro a ha
      cases ha
  exact stream_watermark_starts_at_zero [[pA], [pA, pB]] hp

/-- Claim C8: whenever the poll sees growth it emits exactly the
contiguous slice past its watermark and moves the watermark to the buffer
length (and emits nothing otherwise); consequently, across any append-only
run the emitted events concatenate, gap-free and duplicate-free, to the
suffix of the final buffer past the initial watermark. -/
theorem stream_emits_exact_new_slice :
    (∀ (buf : List Person) (w : Nat), w < buf.length →
        pollOnce buf w = (some (buf.drop w), buf.length)) ∧
    (∀ (buf : List Person) (w : Nat), ¬ w < buf.length → pollOnce buf w = (none, w)) ∧
    (∀ (snaps : List (List Person)) (w : Nat), List.Pairwise extendsTo snaps →
        (runPolls snaps w).flatten = (snaps.getLastD []).drop w) := by
  refine ⟨?_, ?_, ?_⟩
  · intro buf w h
    simp [pollOnce, h]
  · intro buf w h
    simp [pollOnce, h]
  · intro snaps w h
    exact runPolls_join snaps w h

/-- Witness for C8: with watermark 1 over the buffer `[pA, pB]`, exactly
the new slice `[pB]` is emitted and the watermark becomes 2. -/
theorem stream_emits_exact_new_slice_witness :
    pollOnce [pA, pB] 1 = (some [pB], 2) := by
  have h := stream_emits_exact_new_slice.1 [pA, pB] 1 (by decide)
  exact h.trans (by decide)

/- ===== C4: extractor totality ===== -/

theorem extractFromData_ne_nil (t : List Char) : extractFromData t ≠ [] := by
  unfold extractFromData
  split
  · split
    · split
      · split
        · simp
        · rename_i hne
          exact hne
      · simp
    · simp
  · simp

/-- Claim C4: the record extractor always returns at least one record, and
each failure mode — the external call raising, a response with no
bracketed span, or a span `json.loads` rejects — yields exactly one
all-empty record instead of an exception. -/
theorem extractor_total_nonempty :
    (∀ (input : List Char) (resp : Option (List Char)),
        1 ≤ (extract_details input resp).length) ∧
    (∀ input : List Char, extract_details input none = [emptyPerson]) ∧
    (∀ (input resp : List Char),
        pyFind (pyStrip resp) lbrackC = none ∨ pyRFind (pyStrip resp) rbrackC = none →
        extract_details input (some resp) = [emptyPerson]) ∧
    (∀ (input resp : List Char), jsonLoads (mkJsonStr resp) = none →
        extract_details input (some resp) = [emptyPerson]) := by
  refine ⟨?_, ?_, ?_, ?_⟩
  · intro input resp
    cases resp with
    | none => simp [extract_details]
    | some r => exact List.length_pos.mpr (extractFromData_ne_nil r)
  · intro input
    rfl
  · intro input resp h
    show extractFromData resp = [emptyPerson]
    unfold extractFromData
    rcases h with h | h
    · rw [h]
    · rw [h]
      cases pyFind (pyStrip resp) lbrackC <;> rfl
  · intro input resp h
    show extractFromData resp = [emptyPerson]
    unfold extractFromData
    cases hf : pyFind (pyStrip resp) lbrackC with
    | none => rfl
    | some st =>
        cases hr : pyRFind (pyStrip resp) rbrackC with
        | none => rfl
        | some e => rw [h]

/-- Witness for C4: a response with no bracket at all produces the single
all-empty record. -/
theorem extractor_total_nonempty_witness :
    extract_details [] (some ("nothing here".data)) = [emptyPerson] :=
  extractor_total_nonempty.2.2.1 [] (("nothing here").data) (Or.inl (by decide))

/- ===== C3: extractor success path ===== -/

/-- The first bracketed array substring of `c3Resp`: well-formed JSON with
all three keys. -/
def c3FirstArray : List Char :=
  ("[\x7b\"Name\": \"A\", \"Email\": \"a@x\", \"Phone\": \"1\"\x7d]".data)

/-- A response holding that array followed by a second bracketed array. -/
def c3Resp : List Char := c3FirstArray ++ (" and [\"ignored\"]".data)

/-- Claim C3 counterexample: `c3Resp` contains a well-formed JSON array of
Name/Email/Phone objects as its first bracketed array substring (first two
conjuncts show it parses and cleans to one full record), yet the extractor
returns the single all-empty record instead of that array, because the
code slices from the first opening bracket to the LAST closing bracket and
that wider span is not valid JSON. -/
theorem extractor_first_array_cex :
    jsonLoads c3FirstArray =
      some (Json.arr [Json.obj
        [(("Name".data), Json.str ("A".data)),
         (("Email".data), Json.str ("a@x".data)),
         (("Phone".data), Json.str ("1".data))]]) ∧
    cleanAll [Json.obj
        [(("Name".data), Json.str ("A".data)),
         (("Email".data), Json.str ("a@x".data)),
         (("Phone".data), Json.str ("1".data))]] =
      some [⟨("A".data), ("a@x".data), ("1".data)⟩] ∧
    extract_details [] (some c3Resp) = [emptyPerson] ∧
    ([emptyPerson] : List Person) ≠ [⟨("A".data), ("a@x".data), ("1".data)⟩] := by
  refine ⟨rfl, rfl, rfl, by decide⟩

/-- Claim C3 as amended: the located span runs from the first opening
bracket to the last closing bracket (single quotes then replaced by double
quotes); whenever that span parses as a JSON array whose element objects
clean successfully to a non-empty record list, the extractor returns
exactly that list — each present string field stripped of surrounding
whitespace and each missing key defaulted to the empty string. -/
theorem extractor_parses_full_span :
    (∀ (text : List Char) (xs : List Json) (ps : List Person),
        jsonLoads (mkJsonStr text) = some (Json.arr xs) →
        cleanAll xs = some ps → ps ≠ [] →
        extractFromData text = ps) ∧
    (∀ (kvs : List ((List Char) × Json)) (n e : List Char),
        objGet kvs ("Name".data) = some (Json.str n) →
        objGet kvs ("Email".data) = some (Json.str e) →
        objGet kvs ("Phone".data) = none →
        cleanRecord (Json.obj kvs) = some ⟨pyStrip n, pyStrip e, []⟩) := by
  constructor
  · intro text xs ps h1 h2 h3
    unfold extractFromData
    cases hf : pyFind (pyStrip text) lbrackC with
    | none =>
        exfalso
        have hz : mkJsonStr text = [] := by simp [mkJsonStr, hf]
        rw [hz] at h1
        have hcontra : (none : Option Json) = some (Json.arr xs) := h1
        cases hcontra
    | some st =>
        cases hr : pyRFind (pyStrip text) rbrackC with
        | none =>
            exfalso
            have hz : mkJsonStr text = [] := by simp [mkJsonStr, hf, hr]
            rw [hz] at h1
            have hcontra : (none : Option Json) = some (Json.arr xs) := h1
            cases hcontra
        | some e =>
            simp only [h1, h2, if_neg h3]
  · intro kvs n e h1 h2 h3
    simp [cleanRecord, coerceField, h1, h2, h3]

/-- Witness for the amended C3: a response whose bracketed span uses
single quotes, a padded name and a missing email yields exactly the
stripped, defaulted record. -/
theorem extractor_parses_full_span_witness :
    extractFromData ("xx [\x7b'Name': ' Bob ', 'Phone': '123'\x7d] yy".data) =
      [⟨("Bob".data), [], ("123".data)⟩] :=
  extractor_parses_full_span.1 ("xx [\x7b'Name': ' Bob ', 'Phone': '123'\x7d] yy".data)
    [Json.obj [(("Name".data), Json.str (" Bob ".data)),
               (("Phone".data), Json.str ("123".data))]]
    [⟨("Bob".data), [], ("123".data)⟩] rfl rfl (by decide)

/- ===== C7: attachment extractor ===== -/

/-- Claim C7: the attachment extractor returns the empty string for every
content-type matching none of the pdf/word/image checks, when the fetch
raises, when the content-type is absent, when the matched parser raises,
and for an image without the OCR dependency; being a total function of its
oracles, it never propagates an exception. -/
theorem attachment_extractor_degrades_to_empty :
    (∀ (env : MediaEnv) (mt : List Char),
        containsSub ("pdf".data) (pyLower mt) = false →
        containsSub ("word".data) (pyLower mt) = false →
        startsWithL ("image/".data) mt = false →
        extract_text_from_file env (some mt) = []) ∧
    (∀ (env : MediaEnv) (mto : Option (List Char)), env.fetchOk = false →
        extract_text_from_file env mto = []) ∧
    (∀ env : MediaEnv, extract_text_from_file env none = []) ∧
    (∀ (env : MediaEnv) (mt : List Char),
        containsSub ("pdf".data) (pyLower mt) = true → env.pdfPages = none →
        extract_text_from_file env (some mt) = []) ∧
    (∀ (env : MediaEnv) (mt : List Char),
        containsSub ("pdf".data) (pyLower mt) = false →
        containsSub ("word".data) (pyLower mt) = true → env.docxParas = none →
        extract_text_from_file env (some mt) = []) ∧
    (∀ (env : MediaEnv) (mt : List Char),
        containsSub ("pdf".data) (pyLower mt) = false →
        containsSub ("word".data) (pyLower mt) = false →
        startsWithL ("image/".data) mt = true →
        env.tesseractAvailable = false ∨ env.ocrText = none →
        extract_text_from_file env (some mt) = []) := by
  refine ⟨?_, ?_, ?_, ?_, ?_, ?_⟩
  · intro env mt h1 h2 h3
    simp [extract_text_from_file, h1, h2, h3]
  · intro env mto h
    simp [extract_text_from_file, h]
  · intro env
    by_cases h : env.fetchOk = false <;> simp [extract_text_from_file, h]
  · intro env mt h1 h2
    simp [extract_text_from_file, h1, h2]
  · intro env mt h1 h2 h3
    simp [extract_text_from_file, h1, h2, h3]
  · intro env mt h1 h2 h3 h4
    rcases h4 with h4 | h4
    · simp [extract_text_from_file, h1, h2, h3, h4]
    · by_cases hT : env.tesseractAvailable <;>
        simp [extract_text_from_file, h1, h2, h3, h4, hT]

/-- Witness for C7: a plain-text attachment degrades to the empty string
even with the fetch succeeding and OCR available. -/
theorem attachment_extractor_degrades_to_empty_witness :
    extract_text_from_file ⟨true, none, none, none, true⟩ (some ("text/plain".data)) = [] :=
  attachment_extractor_degrades_to_empty.1 ⟨true, none, none, none, true⟩
    (("text/plain").data) (by decide) (by decide) (by decide)
